import Mathlib

/-!
Verification of the claude-brain memory-store core (src/utils/helpers.ts,
src/utils/compression.ts, src/core/mind.ts, src/hooks/opencode/index.ts,
as bundled in the repository).

JavaScript strings are modelled as lists of code units, with Lean `Char`
standing in for one unit; `String.prototype` operations used by the source
(`includes`, `toLowerCase`, `split`, `slice`, `trim`, template literals) are
embedded as functions on `List Char`.  Machine numbers that the source only
ever uses as non-negative integers (lengths, sizes, epoch timestamps) are
modelled as `Nat`.
-/

/-- A JavaScript string: a list of code units. -/
abbrev JStr := List Char

namespace JS

/-- JS `s.includes(sub)`: `sub` occurs contiguously in `s`. -/
def includes : JStr → JStr → Bool
  | [], sub => sub.isEmpty
  | c :: s', sub => sub.isPrefixOf (c :: s') || includes s' sub

/-- JS `s.toLowerCase()` (ASCII-faithful). -/
def toLower (s : JStr) : JStr := s.map Char.toLower

/-- JS `s.split(sep)` for a single-character separator: never returns an
empty list, and `"".split(sep) = [""]`. -/
def splitChar (sep : Char) : JStr → List JStr
  | [] => [[]]
  | c :: s =>
    match splitChar sep s with
    | [] => [[]]
    | r :: rs => if c = sep then [] :: r :: rs else (c :: r) :: rs

/-- JS `Array.prototype.join(sep)`. -/
def joinSep (sep : JStr) : List JStr → JStr
  | [] => []
  | [x] => x
  | x :: y :: rest => x ++ sep ++ joinSep sep (y :: rest)

/-- JS `xs.slice(-n)` on arrays/strings: the last `n` elements (all of them
when there are fewer than `n`). -/
def takeLast (s : List α) (n : Nat) : List α := s.drop (s.length - n)

/-- JS `s || d` for strings: the empty string is falsy. -/
def orDefault (s d : JStr) : JStr := if s.isEmpty then d else s

/-- JS `o?.field || d`: `undefined` and the empty string both fall back. -/
def optOrDefault (o : Option JStr) (d : JStr) : JStr := orDefault (o.getD []) d

/-- JS `xs.pop() || d` after a `split` (the last element, with the empty
string falling back to the default). -/
def lastOr (xs : List JStr) (d : JStr) : JStr := orDefault (xs.getLast?.getD []) d

/-- JS `n || d` for numbers: `0` is falsy. -/
def numOr (o : Option Nat) (d : Nat) : Nat :=
  match o with
  | some n => if n = 0 then d else n
  | none => d

/-- JS `s.trim()`. -/
def trim (s : JStr) : JStr :=
  ((s.dropWhile Char.isWhitespace).reverse.dropWhile Char.isWhitespace).reverse

/-- Decimal rendering of a `Nat`, as JS template interpolation of a
non-negative integer. -/
def natToStr (n : Nat) : JStr := Nat.toDigits 10 n

/-- JS `parseInt(s, 10)` restricted to the all-digit strings it is applied
to in the source (backup-name epoch suffixes). -/
def digitsToNat (s : JStr) : Nat :=
  s.foldl (fun acc c => acc * 10 + (c.toNat - 48)) 0

end JS

/-! ## src/types.ts — observation types and token estimation -/

/-- The closed enumeration of observation types (src/types.ts). -/
inductive ObservationType
  | discovery | decision | problem | solution | success
  | warning | bugfix | refactor | feature | session
deriving DecidableEq, Repr

/-- src/types.ts — `estimateTokens`: `Math.ceil(text.length / 4)`. -/
def estimateTokens (text : JStr) : Nat := (text.length + 3) / 4

/-! String constants appearing in the classifier and compressors. -/

def sError : JStr := "error".data
def sFailed : JStr := "failed".data
def sException : JStr := "exception".data
def sSuccess : JStr := "success".data
def sPassed : JStr := "passed".data
def sCompleted : JStr := "completed".data
def sWarning : JStr := "warning".data
def sDeprecated : JStr := "deprecated".data
def sFix : JStr := "fix".data
def sBug : JStr := "bug".data
def sDone : JStr := "done".data
def tRead : JStr := "Read".data
def tGlob : JStr := "Glob".data
def tGrep : JStr := "Grep".data
def tEdit : JStr := "Edit".data
def tWrite : JStr := "Write".data
def tBash : JStr := "Bash".data

/-- The lowered output contains one of the problem markers
(src/utils/helpers.ts line 60). -/
def hasProblemMarker (output : JStr) : Bool :=
  let lowerOutput := JS.toLower output
  JS.includes lowerOutput sError || JS.includes lowerOutput sFailed ||
    JS.includes lowerOutput sException

/-- The lowered output contains one of the success markers. -/
def hasSuccessMarker (output : JStr) : Bool :=
  let lowerOutput := JS.toLower output
  JS.includes lowerOutput sSuccess || JS.includes lowerOutput sPassed ||
    JS.includes lowerOutput sCompleted

/-- The lowered output contains one of the warning markers. -/
def hasWarningMarker (output : JStr) : Bool :=
  let lowerOutput := JS.toLower output
  JS.includes lowerOutput sWarning || JS.includes lowerOutput sDeprecated

/-- src/utils/helpers.ts — `classifyObservationType`. -/
def classifyObservationType (toolName output : JStr) : ObservationType :=
  let lowerOutput := JS.toLower output
  if hasProblemMarker output then .problem
  else if hasSuccessMarker output then .success
  else if hasWarningMarker output then .warning
  else if toolName = tRead ∨ toolName = tGlob ∨ toolName = tGrep then .discovery
  else if toolName = tEdit then
    if JS.includes lowerOutput sFix || JS.includes lowerOutput sBug then .bugfix
    else .refactor
  else if toolName = tWrite then .feature
  else .discovery

/-! ## src/utils/compression.ts -/

def TARGET_COMPRESSED_SIZE : Nat := 2000
def COMPRESSION_THRESHOLD : Nat := 3000

/-- The tool-input object: the optional fields the compressors read. -/
structure ToolInput where
  file_path : Option JStr := none
  command : Option JStr := none
  patternField : Option JStr := none

/-- The four regex-driven extraction helpers of src/utils/compression.ts
(`extractImports`, `extractExports`, `extractFunctionSignatures`,
`extractClassNames`) run JavaScript-regex exec loops, and the glob
summarizer calls `JSON.parse`; those engine routines are modelled as opaque
string-list producers.  Every theorem below that touches them is proved for
all of their possible behaviours. -/
structure Extractors where
  extractImports : JStr → List JStr
  extractExports : JStr → List JStr
  extractFunctionSignatures : JStr → List JStr
  extractClassNames : JStr → List JStr
  parseGlobFilenames : JStr → Option (List JStr)

/-- src/utils/compression.ts — `extractErrorPatterns`: lines mentioning
TODO/FIXME/HACK/XXX/BUG, trimmed, cut to 100 chars, at most 10. -/
def extractErrorPatterns (code : JStr) : List JStr :=
  let lines := JS.splitChar '\n' code
  ((lines.filter fun line =>
      JS.includes line "TODO".data || JS.includes line "FIXME".data ||
        JS.includes line "HACK".data || JS.includes line "XXX".data ||
        JS.includes line "BUG".data).map
    fun line => (JS.trim line).take 100).take 10

/-- A `xs.slice(0, k).join(", ")` plus a `(+N more)` tail when more than `k`
entries were present — the list-rendering idiom of `compressFileRead`. -/
def renderCapped (xs : List JStr) (k : Nat) : JStr :=
  JS.joinSep ", ".data (xs.take k) ++
    (if xs.length > k then
      " (+".data ++ JS.natToStr (xs.length - k) ++ " more)".data
    else [])

/-- src/utils/compression.ts — `compressFileRead`. -/
def compressFileRead (E : Extractors) (toolInput : ToolInput) (output : JStr) : JStr :=
  let filePath := JS.optOrDefault toolInput.file_path "unknown".data
  let fileName := JS.lastOr (JS.splitChar '/' filePath) "file".data
  let lines := JS.splitChar '\n' output
  let totalLines := lines.length
  let imports := E.extractImports output
  let exps := E.extractExports output
  let functions := E.extractFunctionSignatures output
  let classes := E.extractClassNames output
  let errors := extractErrorPatterns output
  let parts : List JStr :=
    ["📄 File: ".data ++ fileName ++ " (".data ++ JS.natToStr totalLines ++ " lines)".data]
    ++ (if imports.length > 0 then
          ["\n📦 Imports: ".data ++ renderCapped imports 10] else [])
    ++ (if exps.length > 0 then
          ["\n📤 Exports: ".data ++ renderCapped exps 10] else [])
    ++ (if functions.length > 0 then
          ["\n⚡ Functions: ".data ++ renderCapped functions 10] else [])
    ++ (if classes.length > 0 then
          ["\n🏗️ Classes: ".data ++ JS.joinSep ", ".data classes] else [])
    ++ (if errors.length > 0 then
          ["\n⚠️ Errors/TODOs: ".data ++ JS.joinSep "; ".data (errors.take 5)] else [])
    ++ [JS.joinSep "\n".data
          (["\n--- First 10 lines ---".data] ++ lines.take 10 ++
            ["\n--- Last 5 lines ---".data] ++ JS.takeLast lines 5)]
  parts.flatten

/-- A bash-output line counts as an error line (`compressBashOutput`). -/
def isBashErrorLine (l : JStr) : Bool :=
  let ll := JS.toLower l
  JS.includes ll sError || JS.includes ll sFailed ||
    JS.includes ll sException || JS.includes ll sWarning

/-- A bash-output line counts as a success line (`compressBashOutput`). -/
def isBashSuccessLine (l : JStr) : Bool :=
  let ll := JS.toLower l
  JS.includes ll sSuccess || JS.includes ll sPassed ||
    JS.includes ll sCompleted || JS.includes ll sDone

/-- src/utils/compression.ts — the `parts` array `compressBashOutput`
builds before its final `join("")`. -/
def bashParts (toolInput : ToolInput) (output : JStr) : List JStr :=
  let command := JS.optOrDefault toolInput.command "command".data
  let shortCmd := ((JS.splitChar '\n' command).headD []).take 100
  let lines := JS.splitChar '\n' output
  let errorLines := lines.filter isBashErrorLine
  let successLines := lines.filter isBashSuccessLine
  ["🖥️ Command: ".data ++ shortCmd]
    ++ (if errorLines.length > 0 then
          ["\n❌ Errors (".data ++ JS.natToStr errorLines.length ++ "):".data,
            JS.joinSep "\n".data (errorLines.take 10)] else [])
    ++ (if successLines.length > 0 then
          ["\n✅ Success indicators:".data,
            JS.joinSep "\n".data (successLines.take 5)] else [])
    ++ ["\n📊 Output: ".data ++ JS.natToStr lines.length ++ " lines total".data]
    ++ (if lines.length > 20 then
          ["\n--- First 10 lines ---".data,
            JS.joinSep "\n".data (lines.take 10),
            "\n--- Last 5 lines ---".data,
            JS.joinSep "\n".data (JS.takeLast lines 5)]
        else
          ["\n--- Full output ---".data,
            JS.joinSep "\n".data lines])

/-- src/utils/compression.ts — `compressBashOutput`. -/
def compressBashOutput (toolInput : ToolInput) (output : JStr) : JStr :=
  (bashParts toolInput output).flatten

/-- The regex `^([^:]+):` applied to a grep match line: the non-empty run of
non-colon characters before the first colon, when a colon follows it. -/
def grepFileOfLine (line : JStr) : Option JStr :=
  let pre := line.takeWhile (fun c => c ≠ ':')
  if pre.length > 0 ∧ pre.length < line.length then some pre else none

/-- src/utils/compression.ts — `compressGrepOutput`.  The JS `Set` keeps
first-insertion order, matched by `List.eraseDups`. -/
def compressGrepOutput (toolInput : ToolInput) (output : JStr) : JStr :=
  let pat := JS.optOrDefault toolInput.patternField "pattern".data
  let lines := (JS.splitChar '\n' output).filter (fun l => !l.isEmpty)
  let files := (lines.filterMap grepFileOfLine).eraseDups
  let parts : List JStr :=
    ["🔍 Grep: \"".data ++ pat.take 50 ++ "\"".data,
      "📁 Found in ".data ++ JS.natToStr files.length ++ " files, ".data ++
        JS.natToStr lines.length ++ " matches".data]
    ++ (if files.length > 0 then
          ["\n📂 Files: ".data ++ JS.joinSep ", ".data (files.take 15) ++
            (if files.length > 15 then
              " (+".data ++ JS.natToStr (files.length - 15) ++ " more)".data
            else [])] else [])
    ++ ["\n--- Top matches ---".data, JS.joinSep "\n".data (lines.take 10)]
    ++ (if lines.length > 10 then
          ["\n... and ".data ++ JS.natToStr (lines.length - 10) ++ " more matches".data]
        else [])
  parts.flatten

/-- `f.split("/").slice(0, -1).join("/") || "/"` — parent directory key. -/
def dirOfFile (f : JStr) : JStr :=
  JS.orDefault (JS.joinSep "/".data ((JS.splitChar '/' f).dropLast)) "/".data

/-- `f.split("/").pop() || f` — base file name. -/
def baseOfFile (f : JStr) : JStr := JS.lastOr (JS.splitChar '/' f) f

/-- src/utils/compression.ts — `compressGlobOutput`.  `JSON.parse` is the
opaque `parseGlobFilenames`; on parse failure the raw output is split on
newlines.  The directory grouping keeps key-insertion order as a JS object
does; the by-count sort models the JS stable sort with a strict
comparison. -/
def compressGlobOutput (E : Extractors) (toolInput : ToolInput) (output : JStr) : JStr :=
  let pat := JS.optOrDefault toolInput.patternField "pattern".data
  let files :=
    match E.parseGlobFilenames output with
    | some fs => fs
    | none => (JS.splitChar '\n' output).filter (fun l => !l.isEmpty)
  let dirKeys := (files.map dirOfFile).eraseDups
  let byDir := dirKeys.map (fun d => (d, (files.filter (fun f => dirOfFile f = d)).map baseOfFile))
  let topDirs := (byDir.insertionSort (fun a b => b.2.length < a.2.length)).take 5
  let parts : List JStr :=
    ["📂 Glob: \"".data ++ pat.take 50 ++ "\"".data,
      "📁 Found ".data ++ JS.natToStr files.length ++ " files in ".data ++
        JS.natToStr byDir.length ++ " directories".data]
    ++ ["\n--- Top directories ---".data]
    ++ (topDirs.map fun e =>
          JS.joinSep "/".data (JS.takeLast (JS.splitChar '/' e.1) 3) ++ "/ (".data ++
            JS.natToStr e.2.length ++ " files)".data)
    ++ ["\n--- Sample files ---".data,
        JS.joinSep ", ".data ((files.take 15).map baseOfFile)]
  parts.flatten

/-- src/utils/compression.ts — `compressEditOutput`. -/
def compressEditOutput (toolInput : ToolInput) (output : JStr) : JStr :=
  let filePath := JS.optOrDefault toolInput.file_path "unknown".data
  let fileName := JS.lastOr (JS.splitChar '/' filePath) "file".data
  JS.joinSep "\n".data
    ["✏️ Edited: ".data ++ fileName,
      "📝 Changes applied successfully".data,
      output.take 500]

/-- src/utils/compression.ts — `compressGeneric`. -/
def compressGeneric (output : JStr) : JStr :=
  let lines := JS.splitChar '\n' output
  if lines.length ≤ 30 then output
  else
    JS.joinSep "\n".data
      (["📊 Output: ".data ++ JS.natToStr lines.length ++ " lines".data,
          "--- First 15 lines ---".data]
        ++ lines.take 15
        ++ ["--- Last 10 lines ---".data]
        ++ JS.takeLast lines 10)

/-- The truncation marker appended by `truncateToTarget`. -/
def truncMarker : JStr := "\n... (compressed)".data

/-- src/utils/compression.ts — `truncateToTarget`. -/
def truncateToTarget (text : JStr) : JStr :=
  if text.length ≤ TARGET_COMPRESSED_SIZE then text
  else text.take (TARGET_COMPRESSED_SIZE - 20) ++ truncMarker

structure CompressionResult where
  compressed : JStr
  wasCompressed : Bool
  originalSize : Nat
deriving DecidableEq, Repr

/-- The per-tool dispatch of `compressToolOutput` (its `switch` statement). -/
def summarizeForTool (E : Extractors) (toolName : JStr) (toolInput : ToolInput)
    (output : JStr) : JStr :=
  if toolName = tRead then compressFileRead E toolInput output
  else if toolName = tBash then compressBashOutput toolInput output
  else if toolName = tGrep then compressGrepOutput toolInput output
  else if toolName = tGlob then compressGlobOutput E toolInput output
  else if toolName = tEdit ∨ toolName = tWrite then compressEditOutput toolInput output
  else compressGeneric output

/-- src/utils/compression.ts — `compressToolOutput`. -/
def compressToolOutput (E : Extractors) (toolName : JStr) (toolInput : ToolInput)
    (output : JStr) : CompressionResult :=
  let originalSize := output.length
  if originalSize ≤ COMPRESSION_THRESHOLD then
    { compressed := output, wasCompressed := false, originalSize := originalSize }
  else
    { compressed := truncateToTarget (summarizeForTool E toolName toolInput output),
      wasCompressed := true,
      originalSize := originalSize }

/-- Trivially-behaving extractors, used to instantiate the opaque
regex/JSON routines at concrete witness inputs. -/
def emptyExtractors : Extractors :=
  { extractImports := fun _ => [],
    extractExports := fun _ => [],
    extractFunctionSignatures := fun _ => [],
    extractClassNames := fun _ => [],
    parseGlobFilenames := fun _ => none }

/-! ## src/core/mind.ts — configuration, lock discipline, lifecycle -/

/-- The recognised configuration options (src/types.ts `DEFAULT_CONFIG`);
`minConfidence` is a float the modelled operations never read and is
omitted. -/
structure MindConfig where
  memoryPath : JStr
  maxContextObservations : Nat := 20
  maxContextTokens : Nat := 2000
  autoCompress : Bool := true
  debug : Bool := false
deriving DecidableEq, Repr

def DEFAULT_CONFIG : MindConfig :=
  { memoryPath := ".claude/mind.mv2".data }

/-- `path.resolve(base, p)` restricted to the shapes the source produces:
an absolute `p` stands alone, a relative one is joined onto `base`
(normalisation of `.`/`..` segments is not exercised by the source). -/
def jsResolve (base p : JStr) : JStr :=
  if p.head? = some '/' then p else base ++ "/".data ++ p

/-- `path.dirname(p)` for the same restricted shapes. -/
def jsDirname (p : JStr) : JStr :=
  let segs := JS.splitChar '/' p
  if segs.length ≤ 1 then ".".data
  else JS.orDefault (JS.joinSep "/".data segs.dropLast) "/".data

/-- The observable filesystem/lock/engine actions a store operation
performs, in order. -/
inductive Ev
  | mkdirp (p : JStr)
  | touch (p : JStr)
  | acquire (p : JStr)
  | engine (op : String)
  | release (p : JStr)
deriving DecidableEq, Repr

/-- src/utils/ — `withMemvidLock(lockPath, fn)`: ensure the lock file's
directory and the lock file exist, acquire the lock, run the critical
section, and release in a `finally`; the body is an `Except` result paired
with the trace of actions it performed before returning or throwing. -/
def withMemvidLock (lockPath : JStr) (fn : Except JStr α × List Ev) :
    Except JStr α × List Ev :=
  (fn.1,
    Ev.mkdirp (jsDirname lockPath) :: Ev.touch lockPath :: Ev.acquire lockPath ::
      (fn.2 ++ [Ev.release lockPath]))

/-- An in-process store handle (the `Mind` class fields the modelled
operations read). -/
structure Mind where
  config : MindConfig
  sessionId : JStr
deriving DecidableEq, Repr

/-- src/core/mind.ts — `getMemoryPath()`: resolved against the *current
working directory*, not the project-root environment variable. -/
def Mind.getMemoryPath (m : Mind) (cwd : JStr) : JStr :=
  jsResolve cwd m.config.memoryPath

/-- The lock sidecar path `` `${memoryPath}.lock` `` used by `withLock`. -/
def Mind.lockPath (m : Mind) (cwd : JStr) : JStr :=
  m.getMemoryPath cwd ++ ".lock".data

/-- src/core/mind.ts — `Mind.withLock`. -/
def Mind.withLock (m : Mind) (cwd : JStr) (fn : Except JStr α × List Ev) :
    Except JStr α × List Ev :=
  withMemvidLock (m.lockPath cwd) fn

/-- `remember` at the trace level: one engine `put` under the lock; the
engine's result (or thrown error) is abstract. -/
def Mind.remember (m : Mind) (cwd : JStr) (putResult : Except JStr JStr) :
    Except JStr JStr × List Ev :=
  m.withLock cwd (putResult, [Ev.engine "put"])

/-- `search` at the trace level: one engine `find` under the lock. -/
def Mind.search (m : Mind) (cwd : JStr) (findResult : Except JStr (List JStr)) :
    Except JStr (List JStr) × List Ev :=
  m.withLock cwd (findResult, [Ev.engine "find"])

/-- `ask` at the trace level: one engine `ask` under the lock. -/
def Mind.ask (m : Mind) (cwd : JStr) (askResult : Except JStr JStr) :
    Except JStr JStr × List Ev :=
  m.withLock cwd (askResult, [Ev.engine "ask"])

/-- `getContext` at the trace level: one engine `timeline`, then one engine
`find` when a query was supplied, under the lock. -/
def Mind.getContextTrace (m : Mind) (cwd : JStr) (query : Option JStr)
    (result : Except JStr (List JStr)) : Except JStr (List JStr) × List Ev :=
  m.withLock cwd
    (result, Ev.engine "timeline" :: (if query.isSome then [Ev.engine "find"] else []))

/-- `saveSessionSummary` at the trace level: one engine `put` under the
lock. -/
def Mind.saveSessionSummary (m : Mind) (cwd : JStr) (putResult : Except JStr JStr) :
    Except JStr JStr × List Ev :=
  m.withLock cwd (putResult, [Ev.engine "put"])

/-- `stats` at the trace level: one engine `stats` and two `timeline` calls
under the lock. -/
def Mind.stats (m : Mind) (cwd : JStr) (statsResult : Except JStr Nat) :
    Except JStr Nat × List Ev :=
  m.withLock cwd
    (statsResult, [Ev.engine "stats", Ev.engine "timeline", Ev.engine "timeline"])

/-! ### Corruption recovery in `Mind.open` -/

/-- The size ceiling: `fileSizeMB > 100` with `fileSizeMB = size / (1024 *
1024)`, exact on byte counts. -/
def MAX_FILE_SIZE_BYTES : Nat := 100 * 1024 * 1024

/-- The fixed corruption signatures matched against the open error's
message (src/core/mind.ts). -/
def corruptionSignatures : List JStr :=
  ["Deserialization".data, "UnexpectedVariant".data, "Invalid".data,
    "corrupt".data, "validation failed".data, "unable to recover".data,
    "table of contents".data]

def isCorruptionError (msg : JStr) : Bool :=
  corruptionSignatures.any (fun sig => JS.includes msg sig)

/-- The backup path `` `${memoryPath}.backup-${Date.now()}` ``. -/
def backupPathOf (memoryPath : JStr) (now : Nat) : JStr :=
  memoryPath ++ ".backup-".data ++ JS.natToStr now

/-- What the existing-file branch of `Mind.open` did to the filesystem. -/
structure OpenEffects where
  backupRenamedTo : Option JStr
  deleteAttempted : Bool
  createdFresh : Bool
deriving DecidableEq, Repr

/-- src/core/mind.ts — the body of `Mind.open`'s locked section when a file
already exists at `memoryPath` (lines 165–197 of the bundle): the stat
size, the engine `use` outcome, whether `renameSync` succeeds, and the
clock are the environment. -/
def openExisting (memoryPath : JStr) (size : Nat) (useResult : Except JStr Unit)
    (renameOk : Bool) (now : Nat) : Except JStr OpenEffects :=
  if MAX_FILE_SIZE_BYTES < size then
    .ok { backupRenamedTo := if renameOk then some (backupPathOf memoryPath now) else none,
          deleteAttempted := false,
          createdFresh := true }
  else
    match useResult with
    | .ok _ =>
        .ok { backupRenamedTo := none, deleteAttempted := false, createdFresh := false }
    | .error msg =>
        if isCorruptionError msg then
          .ok { backupRenamedTo := if renameOk then some (backupPathOf memoryPath now) else none,
                deleteAttempted := !renameOk,
                createdFresh := true }
        else .error msg

/-! ### Backup pruning -/

/-- Walk the constructed pattern `` `^${baseName.replace(".", "\\.")}\.backup-\d+$` ``
against a candidate name: JS `String.replace` with a string argument
replaces only the *first* dot, so the first dot of the base is a literal
and every later dot is a regex wildcard.  Faithful for base names whose
only regex metacharacters are dots (such as the default `mind.mv2`).
Returns what remains of the candidate after the base. -/
def matchBaseLoose : JStr → Bool → JStr → Option JStr
  | [], _, f => some f
  | b :: bs, seenDot, f =>
    match f with
    | [] => none
    | c :: fs =>
      if b = '.' then
        if seenDot then matchBaseLoose bs true fs
        else if c = '.' then matchBaseLoose bs true fs else none
      else if c = b then matchBaseLoose bs seenDot fs else none

def isDigitRun (s : JStr) : Bool := !s.isEmpty && s.all Char.isDigit

/-- The backup-name filter of `pruneBackups`. -/
def matchesBackupName (baseName f : JStr) : Bool :=
  match matchBaseLoose baseName false f with
  | none => false
  | some rest =>
    ".backup-".data.isPrefixOf rest && isDigitRun (rest.drop ".backup-".data.length)

/-- `parseInt(f.split("-").pop() || "0", 10)` — the embedded epoch of a
backup name (exact on the all-digit suffixes produced by matching names). -/
def backupTime (f : JStr) : Nat :=
  JS.digitsToNat (JS.lastOr (JS.splitChar '-' f) "0".data)

structure BackupEntry where
  name : JStr
  time : Nat
deriving DecidableEq, Repr

/-- Descending-epoch order used by `pruneBackups`' sort comparator
`(a, b) => b.time - a.time`. -/
def backupGE (a b : BackupEntry) : Prop := b.time ≤ a.time

instance : DecidableRel backupGE := fun a b => Nat.decLe b.time a.time

instance : IsTotal BackupEntry backupGE :=
  ⟨fun a b => Nat.le_total b.time a.time⟩

instance : IsTrans BackupEntry backupGE :=
  ⟨fun _ _ _ h h' => Nat.le_trans h' h⟩

/-- `memoryPath.split("/").pop() || "mind.mv2"`. -/
def backupBaseName (memoryPath : JStr) : JStr :=
  JS.lastOr (JS.splitChar '/' memoryPath) "mind.mv2".data

/-- src/core/mind.ts — `pruneBackups(memoryPath, keepCount)` over a
directory listing `files`: the names it unlinks (all matching backups past
the `keepCount` newest, in descending-epoch order). -/
def pruneBackups (memoryPath : JStr) (files : List JStr) (keepCount : Nat) :
    List JStr :=
  let baseName := backupBaseName memoryPath
  let backups :=
    (files.filter (fun f => matchesBackupName baseName f)).map
      (fun f => BackupEntry.mk f (backupTime f))
  let sorted := backups.insertionSort backupGE
  (sorted.drop keepCount).map (fun e => e.name)

/-! ### `getContext` observation mapping and token accounting -/

/-- One frame as returned by the engine's `timeline`. -/
structure Frame where
  frame_id : JStr := []
  metaObservationId : Option JStr := none
  metaTimestamp : Option Nat := none
  metaType : Option JStr := none
  metaTool : Option JStr := none
  tsField : Option Nat := none
  label : Option JStr := none
  title : Option JStr := none
  preview : Option JStr := none
  text : Option JStr := none
deriving Repr

/-- The domain observation reconstructed by `getContext`. -/
structure Obs where
  id : JStr
  timestamp : Nat
  type : JStr
  tool : Option JStr
  summary : JStr
  content : JStr
deriving DecidableEq, Repr

/-- `title.replace(/^\[.*?\]\s*/, "")`: strip a leading bracketed tag (the
non-greedy `.*?` reaches the first `]` and `.` does not cross a newline),
then any whitespace. -/
def stripBracketTag (t : JStr) : JStr :=
  match t with
  | '[' :: rest =>
    let inside := rest.takeWhile (fun c => c ≠ ']' ∧ c ≠ '\n')
    match rest.drop inside.length with
    | ']' :: rest2 => rest2.dropWhile Char.isWhitespace
    | _ => t
  | _ => t

/-- `frame.title?.replace(...) || frame.preview?.slice(0, 100) || ""`. -/
def frameSummary (f : Frame) : JStr :=
  JS.orDefault (match f.title with | some t => stripBracketTag t | none => [])
    ((f.preview.getD []).take 100)

/-- src/core/mind.ts — the per-frame observation construction inside
`getContext` (timestamp plausibility normalisation included). -/
def frameToObs (f : Frame) : Obs :=
  let ts0 := JS.numOr f.metaTimestamp (JS.numOr f.tsField 0)
  let ts := if 0 < ts0 ∧ ts0 < 4102444800 then ts0 * 1000 else ts0
  { id := JS.optOrDefault f.metaObservationId f.frame_id,
    timestamp := ts,
    type := JS.orDefault (f.label.getD []) (JS.optOrDefault f.metaType "observation".data),
    tool := f.metaTool,
    summary := frameSummary f,
    content := JS.orDefault (f.text.getD []) (f.preview.getD []) }

/-- The synthesized `"[type] summary"` string the token estimate is taken
over. -/
def obsTokenText (o : Obs) : JStr :=
  "[".data ++ o.type ++ "] ".data ++ o.summary

/-- The accumulation loop of `getContext`: add each observation's estimated
tokens until one would push the total over the budget, then stop (the
overflowing observation contributes nothing). -/
def tokenFold (maxTokens : Nat) (acc : Nat) : List Obs → Nat
  | [] => acc
  | o :: rest =>
    let tokens := estimateTokens (obsTokenText o)
    if maxTokens < acc + tokens then acc
    else tokenFold maxTokens (acc + tokens) rest

/-- The `getContext` return value (session summaries are an unimplemented
placeholder in the source). -/
structure ContextResult where
  recentObservations : List Obs
  relevantMemories : List Obs
  sessionSummaries : List JStr
  tokenCount : Nat
deriving Repr

/-- src/core/mind.ts — the pure part of `getContext`: the engine's timeline
frames and the mapped search results are inputs. -/
def getContextPure (frames : List Frame) (maxContextTokens : Nat)
    (relevant : List Obs) : ContextResult :=
  let recentObservations := frames.map frameToObs
  { recentObservations := recentObservations,
    relevantMemories := relevant,
    sessionSummaries := [],
    tokenCount := tokenFold maxContextTokens 0 recentObservations }

/-! ### The process-wide handle and the automatic capture path -/

/-- src/core/mind.ts — `getMind(config)`: the module-level `mindInstance`
is the state; `Mind.open` is the abstract `openFn`. -/
def getMind (st : Option Mind) (openFn : MindConfig → Mind) (cfg : MindConfig) :
    Mind × Option Mind :=
  match st with
  | some m => (m, some m)
  | none =>
    let m := openFn cfg
    (m, some m)

/-- The memory path `Mind.open` resolves (lines 153–154 of the bundle):
`process.env.CLAUDE_PROJECT_DIR || process.cwd()` as base. -/
def openResolvedMemoryPath (cfg : MindConfig) (envProjectDir : Option JStr)
    (cwd : JStr) : JStr :=
  jsResolve (JS.optOrDefault envProjectDir cwd) cfg.memoryPath

/-- src/hooks/opencode/index.ts — the `content` field that
`tool.execute.after` hands to `mind.remember` (line 103): the compressed
text of the tool output. -/
def capturedContent (E : Extractors) (tool : JStr) (meta : ToolInput)
    (outputStr : JStr) : JStr :=
  (compressToolOutput E tool meta outputStr).compressed

/-- The spec's worked example for the bash summarizer: a log of more than
3000 characters whose lines include `Error: failed` and
`All tests passed`. -/
def exBashOutput : JStr :=
  JS.joinSep "\n".data
    (["Error: failed".data, "All tests passed".data] ++
      List.replicate 120 (List.replicate 26 'x'))

/-- An over-3000-character bash output with exactly 20 lines, sitting on
the boundary of the summarizer's full-output condition. -/
def cex20BashOutput : JStr :=
  JS.joinSep "\n".data (List.replicate 20 (List.replicate 160 'x'))

/-- The lock discipline a store operation's outcome must exhibit: the body
result (including a thrown error) is passed through, the trace is exactly
directory-ensure, lock-file-ensure, acquire, the body's actions, release,
and the release is the final action on every exit path. -/
def locksProperly (lp : JStr) (body : List Ev) (bodyRes : Except JStr α)
    (res : Except JStr α × List Ev) : Prop :=
  res.1 = bodyRes ∧
  res.2 = Ev.mkdirp (jsDirname lp) :: Ev.touch lp :: Ev.acquire lp ::
    (body ++ [Ev.release lp]) ∧
  res.2.count (Ev.acquire lp) = 1 + body.count (Ev.acquire lp) ∧
  res.2.count (Ev.release lp) = 1 + body.count (Ev.release lp) ∧
  (∃ pre, res.2 = pre ++ [Ev.release lp])

/-! ## Helper lemmas -/

theorem splitChar_ne_nil (c : Char) (s : JStr) : JS.splitChar c s ≠ [] := by
  cases s with
  | nil => simp [JS.splitChar]
  | cons a s =>
    rw [JS.splitChar]
    split
    · simp
    · split <;> simp

theorem isPrefixOf_append_self (sub t : JStr) : sub.isPrefixOf (sub ++ t) = true := by
  induction sub with
  | nil => simp [List.isPrefixOf]
  | cons c cs ih => simp [List.isPrefixOf, ih]

theorem includes_nil_sub (s : JStr) : JS.includes s [] = true := by
  induction s <;> simp [JS.includes, *]

theorem includes_self_append (sub suf : JStr) : JS.includes (sub ++ suf) sub = true := by
  cases sub with
  | nil => simpa using includes_nil_sub suf
  | cons a t =>
    have h := isPrefixOf_append_self (a :: t) suf
    rw [List.cons_append] at h
    simp [JS.includes, h]

theorem includes_append_left (pre s sub : JStr) (h : JS.includes s sub = true) :
    JS.includes (pre ++ s) sub = true := by
  induction pre with
  | nil => simpa using h
  | cons c pre ih => simp [JS.includes, ih]

theorem includes_of_infix {s sub : JStr} (h : sub <:+: s) : JS.includes s sub = true := by
  obtain ⟨pre, suf, rfl⟩ := h
  rw [List.append_assoc]
  exact includes_append_left pre _ _ (includes_self_append sub suf)

theorem joinSep_splitChar (c : Char) (s : JStr) :
    JS.joinSep [c] (JS.splitChar c s) = s := by
  induction s with
  | nil => rfl
  | cons a s ih =>
    rw [JS.splitChar]
    rcases hs : JS.splitChar c s with _ | ⟨r, rs⟩
    · exact absurd hs (splitChar_ne_nil c s)
    · rw [hs] at ih
      by_cases hac : a = c
      · subst hac
        simp only [if_pos rfl, JS.joinSep]
        simpa using ih
      · simp only [if_neg hac]
        cases rs with
        | nil => simp only [JS.joinSep] at ih ⊢; simp [ih]
        | cons r2 rs2 =>
          simp only [JS.joinSep] at ih ⊢
          simp only [List.cons_append, List.append_assoc] at ih ⊢
          rw [← ih]

/-! ## Claim theorems -/

/-- C3: for every tool name, tool input, and output string of length at
most 3000 characters, `compressToolOutput` returns the output unchanged
with `wasCompressed = false` and `originalSize` equal to the output's
length. -/
theorem compress_below_threshold_identity (E : Extractors) (toolName : JStr)
    (toolInput : ToolInput) (output : JStr)
    (h : output.length ≤ 3000) :
    compressToolOutput E toolName toolInput output =
      { compressed := output, wasCompressed := false,
        originalSize := output.length } := by
  have h' : output.length ≤ COMPRESSION_THRESHOLD := h
  simp [compressToolOutput, h']

/-- Witness for C3 at a concrete short output. -/
theorem compress_below_threshold_identity_witness :
    (List.replicate 42 'a').length ≤ 3000 ∧
    compressToolOutput emptyExtractors tBash {} (List.replicate 42 'a') =
      { compressed := List.replicate 42 'a', wasCompressed := false,
        originalSize := (List.replicate 42 'a').length } :=
  ⟨by decide,
    compress_below_threshold_identity emptyExtractors tBash {}
      (List.replicate 42 'a') (by decide)⟩

/-- C2: for every output longer than 3000 characters, `compressToolOutput`
reports `wasCompressed = true` and a compressed text of at most 2000
characters, and whenever the tool-specific summary had to be cut the
compressed text ends in the visible `... (compressed)` marker. -/
theorem compress_above_threshold_ceiling (E : Extractors) (toolName : JStr)
    (toolInput : ToolInput) (output : JStr)
    (h : 3000 < output.length) :
    (compressToolOutput E toolName toolInput output).wasCompressed = true ∧
    (compressToolOutput E toolName toolInput output).compressed.length ≤ 2000 ∧
    (2000 < (summarizeForTool E toolName toolInput output).length →
      ∃ pre,
        (compressToolOutput E toolName toolInput output).compressed =
          pre ++ truncMarker) := by
  have hn : ¬ output.length ≤ COMPRESSION_THRESHOLD := by
    simp only [COMPRESSION_THRESHOLD]
    omega
  have hres : compressToolOutput E toolName toolInput output =
      { compressed := truncateToTarget (summarizeForTool E toolName toolInput output),
        wasCompressed := true, originalSize := output.length } := by
    simp [compressToolOutput, hn]
  rw [hres]
  refine ⟨rfl, ?_, ?_⟩
  · by_cases hs : (summarizeForTool E toolName toolInput output).length ≤
        TARGET_COMPRESSED_SIZE
    · simp only [truncateToTarget, if_pos hs]
      simpa [TARGET_COMPRESSED_SIZE] using hs
    · simp only [truncateToTarget, if_neg hs]
      rw [List.length_append, List.length_take]
      have hm : truncMarker.length = 17 := by decide
      rw [hm]
      simp only [TARGET_COMPRESSED_SIZE] at hs ⊢
      omega
  · intro hcut
    have hs : ¬ (summarizeForTool E toolName toolInput output).length ≤
        TARGET_COMPRESSED_SIZE := by
      simp only [TARGET_COMPRESSED_SIZE]
      omega
    exact ⟨List.take (TARGET_COMPRESSED_SIZE - 20)
      (summarizeForTool E toolName toolInput output),
      by simp only [truncateToTarget, if_neg hs]⟩

/-- Witness for C2 at a concrete oversized output. -/
theorem compress_above_threshold_ceiling_witness :
    3000 < (List.replicate 3001 'a').length ∧
    ((compressToolOutput emptyExtractors tBash {} (List.replicate 3001 'a')).wasCompressed = true ∧
      (compressToolOutput emptyExtractors tBash {} (List.replicate 3001 'a')).compressed.length ≤ 2000 ∧
      (2000 < (summarizeForTool emptyExtractors tBash {} (List.replicate 3001 'a')).length →
        ∃ pre,
          (compressToolOutput emptyExtractors tBash {} (List.replicate 3001 'a')).compressed =
            pre ++ truncMarker)) :=
  ⟨by simp only [List.length_replicate]; omega,
    compress_above_threshold_ceiling emptyExtractors tBash {}
      (List.replicate 3001 'a') (by simp only [List.length_replicate]; omega)⟩

/-- C6: `classifyObservationType` is pure (identical inputs give identical
results), problem markers in the lowered output win over everything,
then success markers, then warning markers, and only then the per-tool
defaults apply (Read/Glob/Grep → discovery, Edit → bugfix on fix/bug else
refactor, Write → feature, unknown → discovery). -/
theorem classify_priority_order :
    (∀ t o t' o', t = t' → o = o' →
      classifyObservationType t o = classifyObservationType t' o') ∧
    (∀ t o, hasProblemMarker o = true →
      classifyObservationType t o = .problem) ∧
    (∀ t o, hasProblemMarker o = false → hasSuccessMarker o = true →
      classifyObservationType t o = .success) ∧
    (∀ t o, hasProblemMarker o = false → hasSuccessMarker o = false →
      hasWarningMarker o = true → classifyObservationType t o = .warning) ∧
    (∀ t o, hasProblemMarker o = false → hasSuccessMarker o = false →
      hasWarningMarker o = false → (t = tRead ∨ t = tGlob ∨ t = tGrep) →
      classifyObservationType t o = .discovery) ∧
    (∀ o, hasProblemMarker o = false → hasSuccessMarker o = false →
      hasWarningMarker o = false →
      classifyObservationType tEdit o =
        (if JS.includes (JS.toLower o) sFix || JS.includes (JS.toLower o) sBug
          then .bugfix else .refactor)) ∧
    (∀ o, hasProblemMarker o = false → hasSuccessMarker o = false →
      hasWarningMarker o = false → classifyObservationType tWrite o = .feature) ∧
    (∀ t o, hasProblemMarker o = false → hasSuccessMarker o = false →
      hasWarningMarker o = false → t ≠ tRead → t ≠ tGlob → t ≠ tGrep →
      t ≠ tEdit → t ≠ tWrite → classifyObservationType t o = .discovery) := by
  refine ⟨?_, ?_, ?_, ?_, ?_, ?_, ?_, ?_⟩
  · intro t o t' o' ht ho
    rw [ht, ho]
  · intro t o hp
    simp [classifyObservationType, hp]
  · intro t o hp hs
    simp [classifyObservationType, hp, hs]
  · intro t o hp hs hw
    simp [classifyObservationType, hp, hs, hw]
  · intro t o hp hs hw htool
    simp [classifyObservationType, hp, hs, hw, htool]
  · intro o hp hs hw
    have h1 : ¬ (tEdit = tRead ∨ tEdit = tGlob ∨ tEdit = tGrep) := by decide
    simp [classifyObservationType, hp, hs, hw, h1]
  · intro o hp hs hw
    have h1 : ¬ (tWrite = tRead ∨ tWrite = tGlob ∨ tWrite = tGrep) := by decide
    have h2 : tWrite ≠ tEdit := by decide
    simp [classifyObservationType, hp, hs, hw, h1, h2]
  · intro t o hp hs hw h1 h2 h3 h4 h5
    have h6 : ¬ (t = tRead ∨ t = tGlob ∨ t = tGrep) := by
      intro h
      rcases h with h | h | h
      · exact h1 h
      · exact h2 h
      · exact h3 h
    simp [classifyObservationType, hp, hs, hw, h6, h4, h5]

/-- Witness for C6: the problem-marker priority at a concrete input. -/
theorem classify_priority_order_witness :
    hasProblemMarker "Fatal ERROR in build".data = true ∧
    classifyObservationType tWrite "Fatal ERROR in build".data = .problem :=
  ⟨by decide,
    classify_priority_order.2.1 tWrite "Fatal ERROR in build".data (by decide)⟩

theorem tokenFold_le_max (maxTokens : Nat) :
    ∀ (l : List Obs) (acc : Nat), acc ≤ maxTokens →
      tokenFold maxTokens acc l ≤ maxTokens := by
  intro l
  induction l with
  | nil => intro acc h; simpa [tokenFold] using h
  | cons o rest ih =>
    intro acc h
    rw [tokenFold]
    split
    · exact h
    · exact ih _ (by omega)

theorem tokenFold_take_sum (maxTokens : Nat) :
    ∀ (l : List Obs) (acc : Nat),
      ∃ k, k ≤ l.length ∧
        tokenFold maxTokens acc l =
          acc + ((l.map fun o => estimateTokens (obsTokenText o)).take k).sum ∧
        (∀ tk, ((l.map fun o => estimateTokens (obsTokenText o)).drop k).head? = some tk →
          maxTokens < tokenFold maxTokens acc l + tk) := by
  intro l
  induction l with
  | nil =>
    intro acc
    exact ⟨0, by simp [tokenFold]⟩
  | cons o rest ih =>
    intro acc
    by_cases hov : maxTokens < acc + estimateTokens (obsTokenText o)
    · refine ⟨0, by simp, ?_, ?_⟩
      · simp [tokenFold, hov]
      · intro tk htk
        simp only [List.map_cons, List.drop_zero, List.head?_cons, Option.some.injEq] at htk
        rw [tokenFold, if_pos hov]
        omega
    · obtain ⟨k, hk, hsum, hhead⟩ := ih (acc + estimateTokens (obsTokenText o))
      refine ⟨k + 1, by simpa using hk, ?_, ?_⟩
      · rw [tokenFold, if_neg hov, hsum]
        simp [List.take_succ_cons]
        omega
      · intro tk htk
        rw [tokenFold, if_neg hov]
        apply hhead
        simpa [List.drop_succ_cons] using htk

/-- C7: for every engine timeline and configured budget, the
`tokenCount` computed by `getContext` never exceeds `maxContextTokens`:
it is the sum of the estimated tokens (ceil of the `"[type] summary"`
length over 4) of an initial run of the recent observations, and the first
observation whose addition would overflow the budget contributes
nothing. -/
theorem getContext_token_budget (frames : List Frame) (maxContextTokens : Nat)
    (relevant : List Obs) :
    (getContextPure frames maxContextTokens relevant).tokenCount ≤ maxContextTokens ∧
    ∃ k, k ≤ frames.length ∧
      (getContextPure frames maxContextTokens relevant).tokenCount =
        (((frames.map frameToObs).map fun o => estimateTokens (obsTokenText o)).take k).sum ∧
      (∀ tk,
        (((frames.map frameToObs).map fun o => estimateTokens (obsTokenText o)).drop k).head? =
          some tk →
        maxContextTokens <
          (getContextPure frames maxContextTokens relevant).tokenCount + tk) := by
  have hcount : (getContextPure frames maxContextTokens relevant).tokenCount =
      tokenFold maxContextTokens 0 (frames.map frameToObs) := rfl
  constructor
  · rw [hcount]
    exact tokenFold_le_max maxContextTokens (frames.map frameToObs) 0 (Nat.zero_le _)
  · obtain ⟨k, hk, hsum, hhead⟩ :=
      tokenFold_take_sum maxContextTokens (frames.map frameToObs) 0
    refine ⟨k, by simpa using hk, ?_, ?_⟩
    · rw [hcount, hsum]
      omega
    · intro tk htk
      rw [hcount]
      exact hhead tk htk

/-- Witness for C7 at a concrete two-frame timeline and budget. -/
theorem getContext_token_budget_witness :
    (getContextPure
        [{ title := some "[success] all good".data },
          { title := some "[problem] broke".data }] 3 []).tokenCount ≤ 3 ∧
    ∃ k, k ≤ 2 ∧
      (getContextPure
          [{ title := some "[success] all good".data },
            { title := some "[problem] broke".data }] 3 []).tokenCount =
        ((([({ title := some "[success] all good".data } : Frame),
            { title := some "[problem] broke".data }].map frameToObs).map
            fun o => estimateTokens (obsTokenText o)).take k).sum ∧
      (∀ tk,
        ((([({ title := some "[success] all good".data } : Frame),
            { title := some "[problem] broke".data }].map frameToObs).map
            fun o => estimateTokens (obsTokenText o)).drop k).head? = some tk →
        3 < (getContextPure
            [{ title := some "[success] all good".data },
              { title := some "[problem] broke".data }] 3 []).tokenCount + tk) :=
  getContext_token_budget
    [{ title := some "[success] all good".data },
      { title := some "[problem] broke".data }] 3 []

/-- C8 counterexample: a 2500-character Bash output flows through the
automatic capture path without any caller-side bypass, yet the persisted
content is the unchanged 2500-character output — above the claimed
2000-character compression target ceiling. -/
theorem capture_content_ceiling_cex :
    (capturedContent emptyExtractors tBash {} (List.replicate 2500 'a')).length = 2500 ∧
    2000 < (capturedContent emptyExtractors tBash {} (List.replicate 2500 'a')).length ∧
    (compressToolOutput emptyExtractors tBash {} (List.replicate 2500 'a')).wasCompressed
      = false := by
  have hle : (List.replicate 2500 'a').length ≤ COMPRESSION_THRESHOLD := by
    simp only [List.length_replicate, COMPRESSION_THRESHOLD]
    omega
  have h : capturedContent emptyExtractors tBash {} (List.replicate 2500 'a') =
      List.replicate 2500 'a' := by
    simp only [capturedContent, compressToolOutput, if_pos hle]
  have hw : (compressToolOutput emptyExtractors tBash {}
      (List.replicate 2500 'a')).wasCompressed = false := by
    simp only [compressToolOutput, if_pos hle]
  refine ⟨?_, ?_, hw⟩
  · rw [h, List.length_replicate]
  · rw [h, List.length_replicate]
    omega

/-- C8 amended: content persisted through the automatic capture path is
bounded by the compression *threshold* (3000); only when the raw output
exceeds that threshold is it further bounded by the 2000-character target
ceiling. -/
theorem capture_content_threshold_bound (E : Extractors) (tool : JStr)
    (meta : ToolInput) (outputStr : JStr) :
    (capturedContent E tool meta outputStr).length ≤ 3000 ∧
    (3000 < outputStr.length →
      (capturedContent E tool meta outputStr).length ≤ 2000) := by
  by_cases hle : outputStr.length ≤ COMPRESSION_THRESHOLD
  · have h : capturedContent E tool meta outputStr = outputStr := by
      simp [capturedContent, compressToolOutput, hle]
    rw [h]
    refine ⟨hle, ?_⟩
    intro hgt
    simp only [COMPRESSION_THRESHOLD] at hle
    omega
  · have h : capturedContent E tool meta outputStr =
        truncateToTarget (summarizeForTool E tool meta outputStr) := by
      simp [capturedContent, compressToolOutput, hle]
    have hb : (truncateToTarget (summarizeForTool E tool meta outputStr)).length ≤ 2000 := by
      by_cases hs : (summarizeForTool E tool meta outputStr).length ≤ TARGET_COMPRESSED_SIZE
      · simp only [truncateToTarget, if_pos hs]
        simpa [TARGET_COMPRESSED_SIZE] using hs
      · simp only [truncateToTarget, if_neg hs]
        rw [List.length_append, List.length_take]
        have hm : truncMarker.length = 17 := by decide
        rw [hm]
        simp only [TARGET_COMPRESSED_SIZE] at hs ⊢
        omega
    rw [h]
    exact ⟨Nat.le_trans hb (by omega), fun _ => hb⟩

/-- Witness for the amended C8 at a concrete oversized output. -/
theorem capture_content_threshold_bound_witness :
    3000 < (List.replicate 3500 'b').length ∧
    ((capturedContent emptyExtractors tGrep {} (List.replicate 3500 'b')).length ≤ 3000 ∧
      (3000 < (List.replicate 3500 'b').length →
        (capturedContent emptyExtractors tGrep {} (List.replicate 3500 'b')).length ≤ 2000)) :=
  ⟨by simp only [List.length_replicate]; omega,
    capture_content_threshold_bound emptyExtractors tGrep {} (List.replicate 3500 'b')⟩

/-- C10: once the process-wide instance exists, `getMind` returns that
exact instance and ignores its config argument — a second call with a
different `memoryPath` still gets the store opened by the first call —
and the instance's lock path for operations is derived from a memory path
resolved against the current working directory, unlike `Mind.open`, which
resolves against the project-root environment variable; the two resolutions
disagree on a concrete relative path. -/
theorem getMind_singleton_config_ignored :
    (∀ (m : Mind) (openFn : MindConfig → Mind) (cfg : MindConfig),
      getMind (some m) openFn cfg = (m, some m)) ∧
    (∀ (openFn : MindConfig → Mind) (cfg1 cfg2 : MindConfig),
      getMind (getMind none openFn cfg1).2 openFn cfg2 =
        (openFn cfg1, some (openFn cfg1))) ∧
    (∀ (m : Mind) (cwd : JStr),
      m.lockPath cwd = jsResolve cwd m.config.memoryPath ++ ".lock".data) ∧
    (openResolvedMemoryPath DEFAULT_CONFIG (some "/project".data) "/elsewhere".data ≠
      Mind.getMemoryPath { config := DEFAULT_CONFIG, sessionId := [] } "/elsewhere".data) := by
  refine ⟨?_, ?_, ?_, ?_⟩
  · intro m openFn cfg
    rfl
  · intro openFn cfg1 cfg2
    rfl
  · intro m cwd
    rfl
  · decide

/-- C1: every store operation (`remember`, `search`, `ask`, `getContext`,
`saveSessionSummary`, `stats`) runs its engine body under the lock file
`<memoryPath>.lock` derived from the per-instance memory path; the body's
actions sit strictly between one acquire and one release, the body result —
including a thrown error — is passed through, and the release is the final
action on every exit path. -/
theorem store_ops_lock_discipline (m : Mind) (cwd : JStr)
    (r1 : Except JStr JStr) (r2 : Except JStr (List JStr))
    (r3 : Except JStr JStr) (q : Option JStr) (r4 : Except JStr (List JStr))
    (r5 : Except JStr JStr) (r6 : Except JStr Nat) :
    locksProperly (m.lockPath cwd) [Ev.engine "put"] r1 (m.remember cwd r1) ∧
    locksProperly (m.lockPath cwd) [Ev.engine "find"] r2 (m.search cwd r2) ∧
    locksProperly (m.lockPath cwd) [Ev.engine "ask"] r3 (m.ask cwd r3) ∧
    locksProperly (m.lockPath cwd)
      (Ev.engine "timeline" :: (if q.isSome then [Ev.engine "find"] else []))
      r4 (m.getContextTrace cwd q r4) ∧
    locksProperly (m.lockPath cwd) [Ev.engine "put"] r5 (m.saveSessionSummary cwd r5) ∧
    locksProperly (m.lockPath cwd)
      [Ev.engine "stats", Ev.engine "timeline", Ev.engine "timeline"]
      r6 (m.stats cwd r6) := by
  have hgen : ∀ (α : Type) (body : List Ev) (res : Except JStr α)
      (hacq : body.count (Ev.acquire (m.lockPath cwd)) = 0)
      (hrel : body.count (Ev.release (m.lockPath cwd)) = 0),
      locksProperly (m.lockPath cwd) body res (m.withLock cwd (res, body)) := by
    intro α body res hacq hrel
    refine ⟨rfl, rfl, ?_, ?_, ?_⟩
    · simp [Mind.withLock, withMemvidLock, List.count_cons, List.count_append, hacq]
    · simp [Mind.withLock, withMemvidLock, List.count_cons, List.count_append, hrel]
    · exact ⟨Ev.mkdirp (jsDirname (m.lockPath cwd)) :: Ev.touch (m.lockPath cwd) ::
        Ev.acquire (m.lockPath cwd) :: body, by
          simp [Mind.withLock, withMemvidLock]⟩
  refine ⟨?_, ?_, ?_, ?_, ?_, ?_⟩
  · exact hgen _ _ r1 (by simp) (by simp)
  · exact hgen _ _ r2 (by simp) (by simp)
  · exact hgen _ _ r3 (by simp) (by simp)
  · refine hgen _ _ r4 ?_ ?_ <;> rcases q with _ | q <;> simp
  · exact hgen _ _ r5 (by simp) (by simp)
  · exact hgen _ _ r6 (by simp) (by simp)

/-- C4: on an existing memory file, `Mind.open`'s locked body never throws
for an oversized (> 100 MB) file or for an open error matching a corruption
signature — it renames the file to `<path>.backup-<epoch-ms>` (falling back
to a delete attempt when the rename fails, in the corruption case), creates
a fresh store, and returns it — while any other open error propagates
uncaught. -/
theorem open_corruption_recovery (memoryPath : JStr) (size : Nat)
    (useResult : Except JStr Unit) (renameOk : Bool) (now : Nat) :
    (MAX_FILE_SIZE_BYTES < size →
      openExisting memoryPath size useResult renameOk now =
        .ok { backupRenamedTo :=
                if renameOk then some (backupPathOf memoryPath now) else none,
              deleteAttempted := false, createdFresh := true }) ∧
    (∀ msg, size ≤ MAX_FILE_SIZE_BYTES → useResult = .error msg →
      isCorruptionError msg = true →
      openExisting memoryPath size useResult renameOk now =
        .ok { backupRenamedTo :=
                if renameOk then some (backupPathOf memoryPath now) else none,
              deleteAttempted := !renameOk, createdFresh := true }) ∧
    (∀ msg, size ≤ MAX_FILE_SIZE_BYTES → useResult = .error msg →
      isCorruptionError msg = false →
      openExisting memoryPath size useResult renameOk now = .error msg) ∧
    (size ≤ MAX_FILE_SIZE_BYTES → useResult = .ok () →
      openExisting memoryPath size useResult renameOk now =
        .ok { backupRenamedTo := none, deleteAttempted := false,
              createdFresh := false }) := by
  refine ⟨?_, ?_, ?_, ?_⟩
  · intro hbig
    simp [openExisting, hbig]
  · intro msg hsz herr hcorr
    have hnb : ¬ MAX_FILE_SIZE_BYTES < size := by omega
    simp [openExisting, hnb, herr, hcorr]
  · intro msg hsz herr hcorr
    have hnb : ¬ MAX_FILE_SIZE_BYTES < size := by omega
    simp [openExisting, hnb, herr, hcorr]
  · intro hsz hok
    have hnb : ¬ MAX_FILE_SIZE_BYTES < size := by omega
    simp [openExisting, hnb, hok]

/-- Witness for C4: the corruption-signature branch at a concrete failed
rename. -/
theorem open_corruption_recovery_witness :
    ((42 : Nat) ≤ MAX_FILE_SIZE_BYTES ∧
      (Except.error "Deserialization error at byte 7".data :
        Except JStr Unit) = .error "Deserialization error at byte 7".data ∧
      isCorruptionError "Deserialization error at byte 7".data = true) ∧
    openExisting "/p/.claude/mind.mv2".data 42
        (.error "Deserialization error at byte 7".data) false 1700000000000 =
      .ok { backupRenamedTo := none, deleteAttempted := true,
            createdFresh := true } :=
  ⟨⟨by decide, rfl, by decide⟩, by
    have h := (open_corruption_recovery "/p/.claude/mind.mv2".data 42
      (.error "Deserialization error at byte 7".data) false 1700000000000).2.1
      "Deserialization error at byte 7".data (by decide) rfl (by decide)
    simpa using h⟩

theorem includes_flatten_of_mem {x : JStr} {L : List JStr} (h : x ∈ L) :
    JS.includes L.flatten x = true :=
  includes_of_infix (List.infix_of_mem_flatten h)

theorem splitChar_of_not_mem {c : Char} {s : JStr} (h : c ∉ s) :
    JS.splitChar c s = [s] := by
  induction s with
  | nil => rfl
  | cons a s ih =>
    have ha : a ≠ c := fun he => h (he ▸ List.mem_cons_self a s)
    have hs : c ∉ s := fun hm => h (List.mem_cons_of_mem a hm)
    rw [JS.splitChar, ih hs]
    simp [ha]

theorem splitChar_append_sep {c : Char} {x : JStr} (t : JStr) (h : c ∉ x) :
    JS.splitChar c (x ++ c :: t) = x :: JS.splitChar c t := by
  induction x with
  | nil =>
    rw [List.nil_append, JS.splitChar]
    rcases ht : JS.splitChar c t with _ | ⟨r, rs⟩
    · exact absurd ht (splitChar_ne_nil c t)
    · simp
  | cons a x ih =>
    have ha : a ≠ c := fun he => h (he ▸ List.mem_cons_self a x)
    have hx : c ∉ x := fun hm => h (List.mem_cons_of_mem a hm)
    rw [List.cons_append, JS.splitChar, ih hx]
    simp [ha]

theorem splitChar_joinSep {c : Char} :
    ∀ (ls : List JStr), ls ≠ [] → (∀ l ∈ ls, c ∉ l) →
      JS.splitChar c (JS.joinSep [c] ls) = ls := by
  intro ls
  induction ls with
  | nil => intro h; exact absurd rfl h
  | cons x ls ih =>
    intro _ hall
    cases ls with
    | nil =>
      rw [JS.joinSep]
      exact splitChar_of_not_mem (hall x (List.mem_cons_self x []))
    | cons y ls' =>
      rw [JS.joinSep]
      have hx : c ∉ x := hall x (List.mem_cons_self _ _)
      have hrest : ∀ l ∈ y :: ls', c ∉ l := fun l hl =>
        hall l (List.mem_cons_of_mem x hl)
      have : x ++ [c] ++ JS.joinSep [c] (y :: ls') =
          x ++ c :: JS.joinSep [c] (y :: ls') := by simp
      rw [this, splitChar_append_sep _ hx, ih (by simp) hrest]

theorem joinSep_singleton (sep : JStr) (x : JStr) : JS.joinSep sep [x] = x := rfl

theorem joinSep_length {c : Char} :
    ∀ (ls : List JStr), ls ≠ [] →
      (JS.joinSep [c] ls).length = (ls.map List.length).sum + (ls.length - 1) := by
  intro ls
  induction ls with
  | nil => intro h; exact absurd rfl h
  | cons x ls ih =>
    intro _
    cases ls with
    | nil => simp [JS.joinSep]
    | cons y ls' =>
      rw [JS.joinSep]
      have h := ih (by simp)
      simp only [List.length_append, List.length_cons, List.length_nil, List.map_cons,
        List.sum_cons] at h ⊢
      omega

theorem mem_joinSep {a : Char} {sep : JStr} :
    ∀ {ls : List JStr}, a ∈ JS.joinSep sep ls → a ∈ sep ∨ ∃ l ∈ ls, a ∈ l := by
  intro ls
  induction ls with
  | nil => intro h; simp [JS.joinSep] at h
  | cons x ls ih =>
    intro h
    cases ls with
    | nil =>
      rw [JS.joinSep] at h
      exact Or.inr ⟨x, List.mem_cons_self _ _, h⟩
    | cons y ls' =>
      rw [JS.joinSep] at h
      rcases List.mem_append.mp h with h1 | h2
      · rcases List.mem_append.mp h1 with hx | hsep
        · exact Or.inr ⟨x, List.mem_cons_self _ _, hx⟩
        · exact Or.inl hsep
      · rcases ih h2 with hs | ⟨l, hl, hal⟩
        · exact Or.inl hs
        · exact Or.inr ⟨l, List.mem_cons_of_mem x hl, hal⟩

theorem pre_of_isPrefixOf : ∀ {sub s : JStr}, sub.isPrefixOf s = true →
    ∃ t, sub ++ t = s := by
  intro sub
  induction sub with
  | nil => intro s _; exact ⟨s, rfl⟩
  | cons a sub ih =>
    intro s h
    cases s with
    | nil => simp [List.isPrefixOf] at h
    | cons b s' =>
      simp only [List.isPrefixOf, Bool.and_eq_true, beq_iff_eq] at h
      obtain ⟨t, ht⟩ := ih h.2
      exact ⟨t, by rw [List.cons_append, ht, h.1]⟩

theorem infix_of_includes : ∀ {s sub : JStr}, JS.includes s sub = true →
    sub <:+: s := by
  intro s
  induction s with
  | nil =>
    intro sub h
    rw [JS.includes] at h
    rw [List.isEmpty_iff.mp h]
  | cons c s' ih =>
    intro sub h
    rw [JS.includes] at h
    rw [Bool.or_eq_true] at h
    rcases h with hp | hrec
    · obtain ⟨t, ht⟩ := pre_of_isPrefixOf hp
      exact ⟨[], t, by simpa using ht⟩
    · exact (ih hrec).trans ⟨[c], [], by simp⟩

theorem includes_eq_false_of_not_mem {s sub : JStr} {a : Char}
    (ha : a ∈ sub) (hs : a ∉ s) : JS.includes s sub = false := by
  by_contra h
  have h' : JS.includes s sub = true := by
    cases hb : JS.includes s sub
    · exact absurd hb h
    · rfl
  obtain ⟨pre, suf, rfl⟩ := infix_of_includes h'
  exact hs (by simp [ha])

/-- C9 counterexample: an over-3000-character output with *exactly* 20
lines.  The claim ("if the output is under 20 lines — includes the full
output, else the first 10 and last 5 lines") would require the
first-10/last-5 sections here, but the code's condition is
`lines.length > 20`, so the summarizer emits the full output and no
first-10/last-5 sections. -/
theorem compressBash_twenty_lines_cex :
    3000 < cex20BashOutput.length ∧
    (JS.splitChar '\n' cex20BashOutput).length = 20 ∧
    ¬ ((JS.splitChar '\n' cex20BashOutput).length < 20) ∧
    JS.includes (compressBashOutput { command := some "npm test".data } cex20BashOutput)
      "\n--- Full output ---".data = true ∧
    JS.includes (compressBashOutput { command := some "npm test".data } cex20BashOutput)
      "\n--- Last 5 lines ---".data = false := by
  have hnl : '\n' ∉ List.replicate 160 'x' := by
    intro hm
    exact absurd (List.eq_of_mem_replicate hm) (by decide)
  have hne : List.replicate 20 (List.replicate 160 'x') ≠ ([] : List JStr) := by
    intro hnil
    have hlen := congrArg List.length hnil
    simp only [List.length_replicate, List.length_nil] at hlen
    omega
  have h1 : JS.splitChar '\n' cex20BashOutput =
      List.replicate 20 (List.replicate 160 'x') := by
    apply splitChar_joinSep _ hne
    intro l hl
    rw [List.eq_of_mem_replicate hl]
    exact hnl
  have h2 : cex20BashOutput.length = 3219 := by
    have h := joinSep_length (c := '\n')
      (List.replicate 20 (List.replicate 160 'x')) hne
    have hsum : ((List.replicate 20 (List.replicate 160 'x')).map List.length).sum =
        3200 := by
      rw [List.map_replicate, List.length_replicate, List.sum_replicate,
        smul_eq_mul]
    have hconv : ("\n".data : JStr) = ['\n'] := rfl
    rw [cex20BashOutput, hconv, h, hsum, List.length_replicate]
  have hEf : isBashErrorLine (List.replicate 160 'x') = false := by decide
  have hSf : isBashSuccessLine (List.replicate 160 'x') = false := by decide
  have hfE : List.filter isBashErrorLine (List.replicate 20 (List.replicate 160 'x')) =
      [] := by
    rw [List.filter_replicate, hEf]
    rfl
  have hfS : List.filter isBashSuccessLine (List.replicate 20 (List.replicate 160 'x')) =
      [] := by
    rw [List.filter_replicate, hSf]
    rfl
  have hcmd : ((JS.splitChar '\n'
      (JS.optOrDefault (ToolInput.mk none (some "npm test".data) none).command
        "command".data)).headD []).take 100 =
      "npm test".data := by decide
  have hparts : bashParts { command := some "npm test".data } cex20BashOutput =
      ["🖥️ Command: ".data ++ "npm test".data,
        "\n📊 Output: ".data ++ JS.natToStr 20 ++ " lines total".data,
        "\n--- Full output ---".data,
        JS.joinSep "\n".data (List.replicate 20 (List.replicate 160 'x'))] := by
    simp only [bashParts]
    rw [h1, hcmd, hfE, hfS]
    simp only [List.length_nil, List.length_replicate, gt_iff_lt]
    rw [if_neg (show ¬ ((0:Nat) < 0) by omega),
      if_neg (show ¬ ((0:Nat) < 0) by omega),
      if_neg (show ¬ ((20:Nat) < 20) by omega)]
    simp only [List.append_nil, List.nil_append, List.singleton_append,
      List.cons_append]
  refine ⟨?_, ?_, ?_, ?_, ?_⟩
  · rw [h2]
    omega
  · rw [h1, List.length_replicate]
  · rw [h1, List.length_replicate]
    omega
  · rw [compressBashOutput, hparts]
    apply includes_flatten_of_mem
    exact List.mem_cons_of_mem _ (List.mem_cons_of_mem _ (List.mem_cons_self _ _))
  · apply includes_eq_false_of_not_mem (a := 'L') (by decide)
    rw [compressBashOutput, hparts]
    intro hL
    rcases List.mem_flatten.mp hL with ⟨part, hpart, hmem⟩
    simp only [List.mem_cons, List.not_mem_nil, or_false] at hpart
    rcases hpart with h | h | h | h
    · rw [h] at hmem
      exact absurd hmem (by decide)
    · rw [h] at hmem
      exact absurd hmem (by decide)
    · rw [h] at hmem
      exact absurd hmem (by decide)
    · rw [h] at hmem
      rcases mem_joinSep hmem with hsep | ⟨l, hl, hal⟩
      · exact absurd hsep (by decide)
      · rw [List.eq_of_mem_replicate hl] at hal
        exact absurd (List.eq_of_mem_replicate hal) (by decide)

set_option maxRecDepth 4000 in
/-- C9 (amended): for every Bash tool input and output, the summarizer
starts with the first line of the command truncated to 100 characters;
when error/success marker lines exist it emits the errors header with
their count and at most 10 of them, and the success header with at most 5;
it always reports the total line count; outputs of *at most* 20 lines are
included in full, and longer ones contribute their first 10 and last 5
lines.  The spec's worked example (an over-3000-character log containing
`Error: failed` and `All tests passed`) compresses to a text containing
both an Errors section and a Success indicators section plus the line-count
footer, within the 2000-character ceiling. -/
theorem compressBash_sections (toolInput : ToolInput) (output : JStr) :
    (∃ rest, compressBashOutput toolInput output =
      "🖥️ Command: ".data ++
        ((JS.splitChar '\n'
          (JS.optOrDefault toolInput.command "command".data)).headD []).take 100 ++
        rest) ∧
    ((JS.splitChar '\n' output).filter isBashErrorLine ≠ [] →
      JS.includes (compressBashOutput toolInput output)
        ("\n❌ Errors (".data ++
          JS.natToStr ((JS.splitChar '\n' output).filter isBashErrorLine).length ++
          "):".data) = true ∧
      JS.includes (compressBashOutput toolInput output)
        (JS.joinSep "\n".data
          (((JS.splitChar '\n' output).filter isBashErrorLine).take 10)) = true) ∧
    ((JS.splitChar '\n' output).filter isBashSuccessLine ≠ [] →
      JS.includes (compressBashOutput toolInput output)
        "\n✅ Success indicators:".data = true ∧
      JS.includes (compressBashOutput toolInput output)
        (JS.joinSep "\n".data
          (((JS.splitChar '\n' output).filter isBashSuccessLine).take 5)) = true) ∧
    JS.includes (compressBashOutput toolInput output)
      ("\n📊 Output: ".data ++ JS.natToStr (JS.splitChar '\n' output).length ++
        " lines total".data) = true ∧
    ((JS.splitChar '\n' output).length ≤ 20 →
      JS.includes (compressBashOutput toolInput output) output = true) ∧
    (20 < (JS.splitChar '\n' output).length →
      JS.includes (compressBashOutput toolInput output)
        (JS.joinSep "\n".data ((JS.splitChar '\n' output).take 10)) = true ∧
      JS.includes (compressBashOutput toolInput output)
        (JS.joinSep "\n".data (JS.takeLast (JS.splitChar '\n' output) 5)) = true) ∧
    (3000 < exBashOutput.length ∧
      JS.includes (compressToolOutput emptyExtractors tBash
        { command := some "npm test".data } exBashOutput).compressed
        "Errors".data = true ∧
      JS.includes (compressToolOutput emptyExtractors tBash
        { command := some "npm test".data } exBashOutput).compressed
        "Success indicators".data = true ∧
      JS.includes (compressToolOutput emptyExtractors tBash
        { command := some "npm test".data } exBashOutput).compressed
        "lines total".data = true ∧
      (compressToolOutput emptyExtractors tBash
        { command := some "npm test".data } exBashOutput).compressed.length ≤ 2000) := by
  refine ⟨?_, ?_, ?_, ?_, ?_, ?_, ?_⟩
  · exact ⟨_, rfl⟩
  · intro h
    have hpos : (JS.splitChar '\n' output).filter isBashErrorLine ≠ [] := h
    have hlen : ((JS.splitChar '\n' output).filter isBashErrorLine).length > 0 :=
      List.length_pos.mpr hpos
    constructor <;>
    · rw [compressBashOutput]
      apply includes_flatten_of_mem
      simp only [bashParts]
      rw [if_pos hlen]
      simp
  · intro h
    have hlen : ((JS.splitChar '\n' output).filter isBashSuccessLine).length > 0 :=
      List.length_pos.mpr h
    constructor <;>
    · rw [compressBashOutput]
      apply includes_flatten_of_mem
      simp only [bashParts]
      rw [if_pos hlen]
      simp
  · rw [compressBashOutput]
    apply includes_flatten_of_mem
    simp only [bashParts]
    simp
  · intro h
    have hn : ¬ ((JS.splitChar '\n' output).length > 20) := by omega
    have hj : JS.joinSep "\n".data (JS.splitChar '\n' output) = output :=
      joinSep_splitChar '\n' output
    have hmem : JS.joinSep "\n".data (JS.splitChar '\n' output) ∈
        bashParts toolInput output := by
      simp only [bashParts]
      rw [if_neg hn]
      simp
    have hinc := includes_flatten_of_mem hmem
    rw [hj] at hinc
    rw [compressBashOutput]
    exact hinc
  · intro h
    have hp : (JS.splitChar '\n' output).length > 20 := h
    constructor <;>
    · rw [compressBashOutput]
      apply includes_flatten_of_mem
      simp only [bashParts]
      rw [if_pos hp]
      simp
  · -- the spec's worked example
    have hnlE : ∀ l ∈ ("Error: failed".data :: "All tests passed".data ::
        List.replicate 120 (List.replicate 26 'x')), '\n' ∉ l := by
      intro l hl
      rcases List.mem_cons.mp hl with hh | hl'
      · rw [hh]; decide
      · rcases List.mem_cons.mp hl' with hh | hl''
        · rw [hh]; decide
        · rw [List.eq_of_mem_replicate hl'']
          intro hm
          exact absurd (List.eq_of_mem_replicate hm) (by decide)
    have hneE : ("Error: failed".data :: "All tests passed".data ::
        List.replicate 120 (List.replicate 26 'x')) ≠ ([] : List JStr) :=
      List.cons_ne_nil _ _
    have hunf : exBashOutput = JS.joinSep ['\n']
        ("Error: failed".data :: "All tests passed".data ::
          List.replicate 120 (List.replicate 26 'x')) := rfl
    have e1 : JS.splitChar '\n' exBashOutput =
        "Error: failed".data :: "All tests passed".data ::
          List.replicate 120 (List.replicate 26 'x') := by
      rw [hunf]
      exact splitChar_joinSep _ hneE hnlE
    have e2 : exBashOutput.length = 3270 := by
      have h := joinSep_length (c := '\n')
        ("Error: failed".data :: "All tests passed".data ::
          List.replicate 120 (List.replicate 26 'x')) hneE
      rw [hunf, h]
      decide
    have e3 : ("Error: failed".data :: "All tests passed".data ::
        List.replicate 120 (List.replicate 26 'x')).filter isBashErrorLine =
        ["Error: failed".data] := by decide
    have e4 : ("Error: failed".data :: "All tests passed".data ::
        List.replicate 120 (List.replicate 26 'x')).filter isBashSuccessLine =
        ["All tests passed".data] := by decide
    have hcmdE : ((JS.splitChar '\n'
        (JS.optOrDefault ({ command := some "npm test".data } : ToolInput).command
          "command".data)).headD []).take 100 = "npm test".data := by decide
    have hbp : bashParts { command := some "npm test".data } exBashOutput =
        ["🖥️ Command: ".data ++ "npm test".data,
          "\n❌ Errors (".data ++ JS.natToStr 1 ++ "):".data,
          "Error: failed".data,
          "\n✅ Success indicators:".data,
          "All tests passed".data,
          "\n📊 Output: ".data ++ JS.natToStr 122 ++ " lines total".data,
          "\n--- First 10 lines ---".data,
          JS.joinSep "\n".data ("Error: failed".data :: "All tests passed".data ::
            List.replicate 8 (List.replicate 26 'x')),
          "\n--- Last 5 lines ---".data,
          JS.joinSep "\n".data (List.replicate 5 (List.replicate 26 'x'))] := by
      simp only [bashParts]
      rw [e1, hcmdE, e3, e4]
      rw [if_pos (show (["Error: failed".data] : List JStr).length > 0 by decide),
        if_pos (show (["All tests passed".data] : List JStr).length > 0 by decide),
        if_pos (show ("Error: failed".data :: "All tests passed".data ::
          List.replicate 120 (List.replicate 26 'x')).length > 20 by decide)]
      rfl
    have hsumm : summarizeForTool emptyExtractors tBash
        { command := some "npm test".data } exBashOutput =
        compressBashOutput { command := some "npm test".data } exBashOutput := by
      rw [summarizeForTool, if_neg (by decide), if_pos rfl]
    have hflat : compressBashOutput { command := some "npm test".data } exBashOutput =
        (["🖥️ Command: ".data ++ "npm test".data,
          "\n❌ Errors (".data ++ JS.natToStr 1 ++ "):".data,
          "Error: failed".data,
          "\n✅ Success indicators:".data,
          "All tests passed".data,
          "\n📊 Output: ".data ++ JS.natToStr 122 ++ " lines total".data,
          "\n--- First 10 lines ---".data,
          JS.joinSep "\n".data ("Error: failed".data :: "All tests passed".data ::
            List.replicate 8 (List.replicate 26 'x')),
          "\n--- Last 5 lines ---".data,
          JS.joinSep "\n".data (List.replicate 5 (List.replicate 26 'x'))] :
          List JStr).flatten := by
      rw [compressBashOutput, hbp]
    have hlen535 : (compressBashOutput { command := some "npm test".data }
        exBashOutput).length = 535 := by
      rw [hflat]
      decide
    have hthresh : ¬ (exBashOutput.length ≤ COMPRESSION_THRESHOLD) := by
      rw [e2]
      simp only [COMPRESSION_THRESHOLD]
      omega
    have hcomp : (compressToolOutput emptyExtractors tBash
        { command := some "npm test".data } exBashOutput).compressed =
        compressBashOutput { command := some "npm test".data } exBashOutput := by
      simp only [compressToolOutput, if_neg hthresh]
      rw [hsumm, truncateToTarget, if_pos]
      rw [hlen535]
      simp only [TARGET_COMPRESSED_SIZE]
      omega
    refine ⟨?_, ?_, ?_, ?_, ?_⟩
    · rw [e2]
      omega
    · rw [hcomp, hflat]
      decide
    · rw [hcomp, hflat]
      decide
    · rw [hcomp, hflat]
      decide
    · rw [hcomp, hlen535]
      omega

/-- Witness for C9 at a concrete input exercising the marker sections. -/
theorem compressBash_sections_witness :
    ((JS.splitChar '\n' "Error: failed\nAll tests passed".data).filter
      isBashErrorLine ≠ []) ∧
    (JS.includes (compressBashOutput { command := some "npm test".data }
        "Error: failed\nAll tests passed".data)
      ("\n❌ Errors (".data ++
        JS.natToStr ((JS.splitChar '\n' "Error: failed\nAll tests passed".data).filter
          isBashErrorLine).length ++
        "):".data) = true ∧
      JS.includes (compressBashOutput { command := some "npm test".data }
          "Error: failed\nAll tests passed".data)
        (JS.joinSep "\n".data
          (((JS.splitChar '\n' "Error: failed\nAll tests passed".data).filter
            isBashErrorLine).take 10)) = true) :=
  ⟨by decide,
    (compressBash_sections { command := some "npm test".data }
      "Error: failed\nAll tests passed".data).2.1 (by decide)⟩

/-- C5: `pruneBackups` deletes only sibling files matching the
`<basename>.backup-<digits>` pattern, and afterwards exactly the
`min 3 n` matching backups with the largest embedded epochs remain
(assuming the directory listing has no duplicate names, the embedded
epochs are pairwise distinct, and the individual deletions succeed). -/
theorem pruneBackups_keeps_three_newest (memoryPath : JStr) (files : List JStr)
    (hnd : files.Nodup)
    (hti : ((files.filter fun f => matchesBackupName (backupBaseName memoryPath) f).map backupTime).Nodup) :
    (∀ g ∈ pruneBackups memoryPath files 3, g ∈ (files.filter fun f => matchesBackupName (backupBaseName memoryPath) f)) ∧
    ((files.filter fun f => matchesBackupName (backupBaseName memoryPath) f).filter
        (fun f => !(List.contains (pruneBackups memoryPath files 3) f))).length =
      min 3 (files.filter fun f => matchesBackupName (backupBaseName memoryPath) f).length ∧
    (∀ f ∈ (files.filter fun f => matchesBackupName (backupBaseName memoryPath) f).filter
        (fun f => !(List.contains (pruneBackups memoryPath files 3) f)),
      ∀ g ∈ pruneBackups memoryPath files 3, backupTime g < backupTime f) := by
  have hdel : pruneBackups memoryPath files 3 = (((((files.filter fun f => matchesBackupName (backupBaseName memoryPath) f).map fun f => BackupEntry.mk f (backupTime f)).insertionSort backupGE).drop 3).map BackupEntry.name) := rfl
  rw [hdel]
  have hperm : (((files.filter fun f => matchesBackupName (backupBaseName memoryPath) f).map fun f => BackupEntry.mk f (backupTime f)).insertionSort backupGE).Perm ((files.filter fun f => matchesBackupName (backupBaseName memoryPath) f).map fun f => BackupEntry.mk f (backupTime f)) := List.perm_insertionSort _ _
  have hsorted : List.Sorted backupGE (((files.filter fun f => matchesBackupName (backupBaseName memoryPath) f).map fun f => BackupEntry.mk f (backupTime f)).insertionSort backupGE) := List.sorted_insertionSort _ _
  have hnamesmap : ((files.filter fun f => matchesBackupName (backupBaseName memoryPath) f).map fun f => BackupEntry.mk f (backupTime f)).map BackupEntry.name = (files.filter fun f => matchesBackupName (backupBaseName memoryPath) f) := by
    rw [List.map_map]
    have hcomp : (BackupEntry.name ∘ fun f => BackupEntry.mk f (backupTime f)) =
        (id : JStr → JStr) := rfl
    rw [hcomp, List.map_id]
  have hnames : ((((files.filter fun f => matchesBackupName (backupBaseName memoryPath) f).map fun f => BackupEntry.mk f (backupTime f)).insertionSort backupGE).map BackupEntry.name).Perm (files.filter fun f => matchesBackupName (backupBaseName memoryPath) f) := by
    have h := hperm.map BackupEntry.name
    rwa [hnamesmap] at h
  have hmnodup : (files.filter fun f => matchesBackupName (backupBaseName memoryPath) f).Nodup := hnd.filter _
  have hsnodup : ((((files.filter fun f => matchesBackupName (backupBaseName memoryPath) f).map fun f => BackupEntry.mk f (backupTime f)).insertionSort backupGE).map BackupEntry.name).Nodup := hmnodup.perm hnames.symm
  have htime : ∀ e ∈ (((files.filter fun f => matchesBackupName (backupBaseName memoryPath) f).map fun f => BackupEntry.mk f (backupTime f)).insertionSort backupGE), e.time = backupTime e.name := by
    intro e he
    have hmem : e ∈ ((files.filter fun f => matchesBackupName (backupBaseName memoryPath) f).map fun f => BackupEntry.mk f (backupTime f)) := hperm.subset he
    obtain ⟨f, hf, rfl⟩ := List.mem_map.mp hmem
    rfl
  have hsplitN : (((files.filter fun f => matchesBackupName (backupBaseName memoryPath) f).map fun f => BackupEntry.mk f (backupTime f)).insertionSort backupGE).map BackupEntry.name = (((((files.filter fun f => matchesBackupName (backupBaseName memoryPath) f).map fun f => BackupEntry.mk f (backupTime f)).insertionSort backupGE).take 3).map BackupEntry.name) ++ (((((files.filter fun f => matchesBackupName (backupBaseName memoryPath) f).map fun f => BackupEntry.mk f (backupTime f)).insertionSort backupGE).drop 3).map BackupEntry.name) := by
    rw [← List.map_append, List.take_append_drop]
  have hdisj : List.Disjoint (((((files.filter fun f => matchesBackupName (backupBaseName memoryPath) f).map fun f => BackupEntry.mk f (backupTime f)).insertionSort backupGE).take 3).map BackupEntry.name) (((((files.filter fun f => matchesBackupName (backupBaseName memoryPath) f).map fun f => BackupEntry.mk f (backupTime f)).insertionSort backupGE).drop 3).map BackupEntry.name) := by
    apply List.disjoint_of_nodup_append
    rw [← hsplitN]
    exact hsnodup
  have hsubM : ∀ g ∈ (((((files.filter fun f => matchesBackupName (backupBaseName memoryPath) f).map fun f => BackupEntry.mk f (backupTime f)).insertionSort backupGE).drop 3).map BackupEntry.name), g ∈ (files.filter fun f => matchesBackupName (backupBaseName memoryPath) f) := by
    intro g hg
    obtain ⟨e, he, rfl⟩ := List.mem_map.mp hg
    have hs : e ∈ (((files.filter fun f => matchesBackupName (backupBaseName memoryPath) f).map fun f => BackupEntry.mk f (backupTime f)).insertionSort backupGE) := List.mem_of_mem_drop he
    exact hnames.subset (List.mem_map.mpr ⟨e, hs, rfl⟩)
  have hpfilter : ((files.filter fun f => matchesBackupName (backupBaseName memoryPath) f).filter (fun f => !(List.contains (((((files.filter fun f => matchesBackupName (backupBaseName memoryPath) f).map fun f => BackupEntry.mk f (backupTime f)).insertionSort backupGE).drop 3).map BackupEntry.name) f))).Perm (((((files.filter fun f => matchesBackupName (backupBaseName memoryPath) f).map fun f => BackupEntry.mk f (backupTime f)).insertionSort backupGE).take 3).map BackupEntry.name) := by
    have h1 := (hnames.symm).filter (fun f => !(List.contains (((((files.filter fun f => matchesBackupName (backupBaseName memoryPath) f).map fun f => BackupEntry.mk f (backupTime f)).insertionSort backupGE).drop 3).map BackupEntry.name) f))
    rw [hsplitN, List.filter_append] at h1
    have h2 : (((((files.filter fun f => matchesBackupName (backupBaseName memoryPath) f).map fun f => BackupEntry.mk f (backupTime f)).insertionSort backupGE).drop 3).map BackupEntry.name).filter (fun f => !(List.contains (((((files.filter fun f => matchesBackupName (backupBaseName memoryPath) f).map fun f => BackupEntry.mk f (backupTime f)).insertionSort backupGE).drop 3).map BackupEntry.name) f)) = [] := by
      apply List.filter_eq_nil_iff.mpr
      intro a ha
      have helem : List.elem a (((((files.filter fun f => matchesBackupName (backupBaseName memoryPath) f).map fun f => BackupEntry.mk f (backupTime f)).insertionSort backupGE).drop 3).map BackupEntry.name) = true := by
        rw [List.elem_eq_mem]
        exact decide_eq_true ha
      have hcont : List.contains (((((files.filter fun f => matchesBackupName (backupBaseName memoryPath) f).map fun f => BackupEntry.mk f (backupTime f)).insertionSort backupGE).drop 3).map BackupEntry.name) a = true := helem
      show ¬ ((!(List.contains (((((files.filter fun f => matchesBackupName (backupBaseName memoryPath) f).map fun f => BackupEntry.mk f (backupTime f)).insertionSort backupGE).drop 3).map BackupEntry.name) a)) = true)
      rw [hcont]
      decide
    have h3 : (((((files.filter fun f => matchesBackupName (backupBaseName memoryPath) f).map fun f => BackupEntry.mk f (backupTime f)).insertionSort backupGE).take 3).map BackupEntry.name).filter (fun f => !(List.contains (((((files.filter fun f => matchesBackupName (backupBaseName memoryPath) f).map fun f => BackupEntry.mk f (backupTime f)).insertionSort backupGE).drop 3).map BackupEntry.name) f)) = (((((files.filter fun f => matchesBackupName (backupBaseName memoryPath) f).map fun f => BackupEntry.mk f (backupTime f)).insertionSort backupGE).take 3).map BackupEntry.name) := by
      apply List.filter_eq_self.mpr
      intro a ha
      have hnotin : a ∉ (((((files.filter fun f => matchesBackupName (backupBaseName memoryPath) f).map fun f => BackupEntry.mk f (backupTime f)).insertionSort backupGE).drop 3).map BackupEntry.name) := fun hmem => hdisj ha hmem
      have helem : List.elem a (((((files.filter fun f => matchesBackupName (backupBaseName memoryPath) f).map fun f => BackupEntry.mk f (backupTime f)).insertionSort backupGE).drop 3).map BackupEntry.name) = false := by
        rw [List.elem_eq_mem]
        exact decide_eq_false hnotin
      have hcont : List.contains (((((files.filter fun f => matchesBackupName (backupBaseName memoryPath) f).map fun f => BackupEntry.mk f (backupTime f)).insertionSort backupGE).drop 3).map BackupEntry.name) a = false := helem
      show (!(List.contains (((((files.filter fun f => matchesBackupName (backupBaseName memoryPath) f).map fun f => BackupEntry.mk f (backupTime f)).insertionSort backupGE).drop 3).map BackupEntry.name) a)) = true
      rw [hcont]
      decide
    rw [h2, h3, List.append_nil] at h1
    exact h1
  refine ⟨hsubM, ?_, ?_⟩
  · rw [hpfilter.length_eq, List.length_map, List.length_take]
    have hslen : (((files.filter fun f => matchesBackupName (backupBaseName memoryPath) f).map fun f => BackupEntry.mk f (backupTime f)).insertionSort backupGE).length = (files.filter fun f => matchesBackupName (backupBaseName memoryPath) f).length := by
      rw [hperm.length_eq, List.length_map]
    rw [hslen]
  · intro f hf g hg
    have hfT : f ∈ (((((files.filter fun f => matchesBackupName (backupBaseName memoryPath) f).map fun f => BackupEntry.mk f (backupTime f)).insertionSort backupGE).take 3).map BackupEntry.name) := (hpfilter.mem_iff).mp hf
    obtain ⟨e, heT, rfl⟩ := List.mem_map.mp hfT
    obtain ⟨e2, heD, rfl⟩ := List.mem_map.mp hg
    have hrel : backupGE e e2 := hsorted.rel_of_mem_take_of_mem_drop heT heD
    have hle : e2.time ≤ e.time := hrel
    have ht1 : e.time = backupTime e.name := htime e (List.mem_of_mem_take heT)
    have ht2 : e2.time = backupTime e2.name := htime e2 (List.mem_of_mem_drop heD)
    have hfmem : e.name ∈ (files.filter fun f => matchesBackupName (backupBaseName memoryPath) f) := (List.mem_filter.mp hf).1
    have hgmem : e2.name ∈ (files.filter fun f => matchesBackupName (backupBaseName memoryPath) f) := hsubM _ (List.mem_map.mpr ⟨e2, heD, rfl⟩)
    have hne : e.name ≠ e2.name := by
      intro heq
      have hpf := (List.mem_filter.mp hf).2
      have hin : e2.name ∈ (((((files.filter fun f => matchesBackupName (backupBaseName memoryPath) f).map fun f => BackupEntry.mk f (backupTime f)).insertionSort backupGE).drop 3).map BackupEntry.name) := List.mem_map.mpr ⟨e2, heD, rfl⟩
      rw [← heq] at hin
      have helem : List.elem e.name (((((files.filter fun f => matchesBackupName (backupBaseName memoryPath) f).map fun f => BackupEntry.mk f (backupTime f)).insertionSort backupGE).drop 3).map BackupEntry.name) = true := by
        rw [List.elem_eq_mem]
        exact decide_eq_true hin
      have hcont : List.contains (((((files.filter fun f => matchesBackupName (backupBaseName memoryPath) f).map fun f => BackupEntry.mk f (backupTime f)).insertionSort backupGE).drop 3).map BackupEntry.name) e.name = true := helem
      have hpf2 : (!(List.contains (((((files.filter fun f => matchesBackupName (backupBaseName memoryPath) f).map fun f => BackupEntry.mk f (backupTime f)).insertionSort backupGE).drop 3).map BackupEntry.name) e.name)) = true := hpf
      rw [hcont] at hpf2
      exact absurd hpf2 (by decide)
    have htne : backupTime e2.name ≠ backupTime e.name := by
      intro heq
      exact hne (List.inj_on_of_nodup_map hti hgmem hfmem heq).symm
    rw [ht1, ht2] at hle
    exact Nat.lt_of_le_of_ne hle htne

/-- Witness for C5 at a concrete six-file directory listing. -/
theorem pruneBackups_keeps_three_newest_witness :
    ((["mind.mv2.backup-5".data, "mind.mv2.backup-1".data, "mind.mv2.backup-3".data, "mind.mv2.backup-4".data, "other.txt".data, "mind.mv2.backup-2".data] : List JStr).Nodup ∧
      (((["mind.mv2.backup-5".data, "mind.mv2.backup-1".data, "mind.mv2.backup-3".data, "mind.mv2.backup-4".data, "other.txt".data, "mind.mv2.backup-2".data] : List JStr).filter fun f => matchesBackupName (backupBaseName "/p/mind.mv2".data) f).map backupTime).Nodup) ∧
    ((∀ g ∈ pruneBackups "/p/mind.mv2".data (["mind.mv2.backup-5".data, "mind.mv2.backup-1".data, "mind.mv2.backup-3".data, "mind.mv2.backup-4".data, "other.txt".data, "mind.mv2.backup-2".data] : List JStr) 3, g ∈ ((["mind.mv2.backup-5".data, "mind.mv2.backup-1".data, "mind.mv2.backup-3".data, "mind.mv2.backup-4".data, "other.txt".data, "mind.mv2.backup-2".data] : List JStr).filter fun f => matchesBackupName (backupBaseName "/p/mind.mv2".data) f)) ∧
      (((["mind.mv2.backup-5".data, "mind.mv2.backup-1".data, "mind.mv2.backup-3".data, "mind.mv2.backup-4".data, "other.txt".data, "mind.mv2.backup-2".data] : List JStr).filter fun f => matchesBackupName (backupBaseName "/p/mind.mv2".data) f).filter
          (fun f => !(List.contains (pruneBackups "/p/mind.mv2".data (["mind.mv2.backup-5".data, "mind.mv2.backup-1".data, "mind.mv2.backup-3".data, "mind.mv2.backup-4".data, "other.txt".data, "mind.mv2.backup-2".data] : List JStr) 3) f))).length =
        min 3 ((["mind.mv2.backup-5".data, "mind.mv2.backup-1".data, "mind.mv2.backup-3".data, "mind.mv2.backup-4".data, "other.txt".data, "mind.mv2.backup-2".data] : List JStr).filter fun f => matchesBackupName (backupBaseName "/p/mind.mv2".data) f).length ∧
      (∀ f ∈ ((["mind.mv2.backup-5".data, "mind.mv2.backup-1".data, "mind.mv2.backup-3".data, "mind.mv2.backup-4".data, "other.txt".data, "mind.mv2.backup-2".data] : List JStr).filter fun f => matchesBackupName (backupBaseName "/p/mind.mv2".data) f).filter
          (fun f => !(List.contains (pruneBackups "/p/mind.mv2".data (["mind.mv2.backup-5".data, "mind.mv2.backup-1".data, "mind.mv2.backup-3".data, "mind.mv2.backup-4".data, "other.txt".data, "mind.mv2.backup-2".data] : List JStr) 3) f)),
        ∀ g ∈ pruneBackups "/p/mind.mv2".data (["mind.mv2.backup-5".data, "mind.mv2.backup-1".data, "mind.mv2.backup-3".data, "mind.mv2.backup-4".data, "other.txt".data, "mind.mv2.backup-2".data] : List JStr) 3,
          backupTime g < backupTime f)) :=
  ⟨⟨by decide, by decide⟩,
    pruneBackups_keeps_three_newest "/p/mind.mv2".data (["mind.mv2.backup-5".data, "mind.mv2.backup-1".data, "mind.mv2.backup-3".data, "mind.mv2.backup-4".data, "other.txt".data, "mind.mv2.backup-2".data] : List JStr) (by decide) (by decide)⟩

/-- Witness for C1 at a concrete store handle, including bodies that
throw. -/
theorem store_ops_lock_discipline_witness :
    locksProperly ((Mind.mk DEFAULT_CONFIG []).lockPath "/w".data) [Ev.engine "put"]
      (.ok "f1".data)
      ((Mind.mk DEFAULT_CONFIG []).remember "/w".data (.ok "f1".data)) ∧
    locksProperly ((Mind.mk DEFAULT_CONFIG []).lockPath "/w".data) [Ev.engine "find"]
      (.error "boom".data)
      ((Mind.mk DEFAULT_CONFIG []).search "/w".data (.error "boom".data)) ∧
    locksProperly ((Mind.mk DEFAULT_CONFIG []).lockPath "/w".data) [Ev.engine "ask"]
      (.ok "a".data)
      ((Mind.mk DEFAULT_CONFIG []).ask "/w".data (.ok "a".data)) ∧
    locksProperly ((Mind.mk DEFAULT_CONFIG []).lockPath "/w".data)
      (Ev.engine "timeline" ::
        (if (some "q".data : Option JStr).isSome then [Ev.engine "find"] else []))
      (.ok [])
      ((Mind.mk DEFAULT_CONFIG []).getContextTrace "/w".data (some "q".data) (.ok [])) ∧
    locksProperly ((Mind.mk DEFAULT_CONFIG []).lockPath "/w".data) [Ev.engine "put"]
      (.ok "s".data)
      ((Mind.mk DEFAULT_CONFIG []).saveSessionSummary "/w".data (.ok "s".data)) ∧
    locksProperly ((Mind.mk DEFAULT_CONFIG []).lockPath "/w".data)
      [Ev.engine "stats", Ev.engine "timeline", Ev.engine "timeline"]
      (.error "x".data)
      ((Mind.mk DEFAULT_CONFIG []).stats "/w".data (.error "x".data)) :=
  store_ops_lock_discipline (Mind.mk DEFAULT_CONFIG []) "/w".data
    (.ok "f1".data) (.error "boom".data) (.ok "a".data) (some "q".data) (.ok [])
    (.ok "s".data) (.error "x".data)

/-- Witness for C10 at a concrete pre-existing instance and differing
configs. -/
theorem getMind_singleton_config_ignored_witness :
    getMind (some (Mind.mk DEFAULT_CONFIG []))
      (fun cfg => Mind.mk cfg []) { memoryPath := "/x/other.mv2".data } =
      (Mind.mk DEFAULT_CONFIG [], some (Mind.mk DEFAULT_CONFIG [])) :=
  getMind_singleton_config_ignored.1 (Mind.mk DEFAULT_CONFIG [])
    (fun cfg => Mind.mk cfg []) { memoryPath := "/x/other.mv2".data }
